import Mathlib

/-!
# QCMA connection manager (`src/cmaclient.cpp`)

A shallow embedding of `CmaClient`: the static flags and the persisted
setting become fields of `CmaState`, every call into the transport library,
every Qt signal and every dispatcher call is recorded in `CmaState.trace` in
the order it is made, and what the outside world answers (random draws, the
result of the identity exchange, the events returned by the blocking read,
`stop()` calls made by the controlling thread) is supplied as a script.
-/

namespace Qcma

/-! ## Data model -/

/-- The device event `vita_event_t` filled in by `VitaMTP_Read_Event`. -/
structure vita_event_t where
  Code : Nat
  Param1 : Nat
  Param2 : Nat
  Param3 : Nat
  deriving DecidableEq, Repr

/-- The two event codes `enterEventLoop` compares against. They are macros of
the transport library's header, which is not part of the sources, so they are
parameters of the embedding. -/
structure PtpCodes where
  PTP_EC_VITA_RequestTerminate : Nat
  PTP_EC_VITA_RequestCancelTask : Nat
  deriving DecidableEq, Repr

/-- The fields of `wireless_vita_info_t` that `generatePin` reads. -/
structure wireless_vita_info_t where
  name : String
  mac_addr : String
  deriving DecidableEq, Repr

/-- Calls to collaborators and emitted signals, as they appear in the source. -/
inductive Effect where
  /-- Call `VitaMTP_Get_First_USB_Vita()` -/
  | getFirstUsbVita
  /-- Call `VitaMTP_Get_First_Wireless_Vita(...)` -/
  | getFirstWirelessVita
  /-- Call `usbcondition.wait(&usbwait, 2000)` -/
  | usbConditionWait
  /-- Call `Sleeper::sleep(2000)` -/
  | sleep2000
  /-- Call `broadcast.setUnavailable()` -/
  | setUnavailable
  /-- Call `broadcast.setAvailable()` -/
  | setAvailable
  /-- Call `VitaMTP_Get_Identification(device)` -/
  | getIdentification
  /-- Call `vita_info.exchangeInfo(device)` -/
  | exchangeInfo
  /-- Signal `emit deviceConnected(msg)` -/
  | deviceConnected (msg : String)
  /-- Signal `emit deviceDisconnected()` -/
  | deviceDisconnected
  /-- Call `thread.start()` on the dispatcher thread -/
  | threadStart
  /-- Call `VitaMTP_Read_Event(device, &event)` -/
  | readEvent
  /-- Call `eventLoop.vitaEventCancelTask(&event, event.Param1)` -/
  | vitaEventCancelTask (ev : vita_event_t) (eventId : Nat)
  /-- Call `eventLoop.setEvent(event)` -/
  | setEvent (ev : vita_event_t)
  /-- Call `eventLoop.stop()` -/
  | eventLoopStop
  /-- Call `thread.wait()` -/
  | threadWait
  /-- Call `VitaMTP_SendHostStatus(device, VITA_HOST_STATUS_EndConnection)` -/
  | sendHostStatusEndConnection
  /-- Call `VitaMTP_Release_Device(device)` -/
  | releaseDevice
  /-- Call `VitaMTP_Cancel_Get_Wireless_Vita()` -/
  | cancelGetWirelessVita
  /-- Call `usbcondition.wakeAll()` -/
  | usbWakeAll
  /-- Signal `emit finished()` -/
  | finished
  /-- Signal `emit this_object->pinComplete()` -/
  | pinComplete
  /-- Signal `emit this_object->receivedPin(info->name, pin)` -/
  | receivedPin (name : String) (pin : Nat)
  deriving DecidableEq, Repr

/-- The static members of `CmaClient`, the persisted `lastOnlineId` entry of
`QSettings` (`none` while it was never written) and the trace of effects. -/
structure CmaState where
  is_active : Bool
  in_progress : Bool
  tempOnlineId : String
  lastOnlineId : Option String
  /-- Value of `sema.available()` -/
  sema : Nat
  /-- Whether the static mutex `usbwait` is locked. -/
  usbwait : Bool
  trace : List Effect
  deriving DecidableEq, Repr

/-- The state at program start: `is_active = false`, `in_progress = false`,
`tempOnlineId = QString()`, semaphore with no permit, `usbwait` unlocked. -/
def CmaState.initial : CmaState :=
  { is_active := false, in_progress := false, tempOnlineId := "",
    lastOnlineId := none, sema := 0, usbwait := false, trace := [] }

/-- Record one effect at the end of the trace. -/
def CmaState.emit (s : CmaState) (e : Effect) : CmaState :=
  { s with trace := s.trace ++ [e] }

/-! ## `isActive`, `setActive`, `stop` -/

/-- Method `CmaClient::isActive` -/
def isActive (s : CmaState) : Bool := s.is_active

/-- Method `CmaClient::setActive` -/
def setActive (state : Bool) (s : CmaState) : CmaState :=
  { s with is_active := state }

/-- Method `CmaClient::stop`: the returned `int` and the state afterwards. -/
def stop (s : CmaState) : Int × CmaState :=
  if !isActive s then
    (-1, s)
  else
    (0, ((setActive false s).emit Effect.cancelGetWirelessVita).emit Effect.usbWakeAll)

/-! ## Pairing callbacks -/

/-- Method `CmaClient::deviceRegistered` -/
def deviceRegistered (_deviceid : String) : Int := 1

/-- Method `CmaClient::generatePin`. `x` is the value of the `rand()` call in the left
operand of `|`, `y` the value of the one in the right operand; both are
non-negative `int`s. No intermediate value exceeds `99990000 < 2^31`, so the
`int` arithmetic does not overflow. Returns the PIN, the value stored in
`*p_err` and the state afterwards. -/
def generatePin (info : wireless_vita_info_t) (x y : Nat) (s : CmaState) :
    Nat × Int × CmaState :=
  let s1 := { s with tempOnlineId := info.name }
  let pin := (x % 10000 * 10000) ||| (y % 10000)
  (pin, 0, s1.emit (Effect.receivedPin info.name pin))

/-- Method `CmaClient::registrationComplete` -/
def registrationComplete (s : CmaState) : CmaState :=
  ({ s with lastOnlineId := some s.tempOnlineId }).emit Effect.pinComplete

/-- A run of pairing attempts: `generatePin` once per request, in order. -/
def pairingAttempts : List (wireless_vita_info_t × Nat × Nat) → CmaState → CmaState
  | [], s => s
  | (info, x, y) :: rest, s => pairingAttempts rest (generatePin info x y s).2.2

/-- The decimal concatenation of the two four-digit halves. -/
def decimalConcat (x y : Nat) : Nat := (x % 10000) * 10000 + y % 10000

/-! ## The event loop of one session -/

/-- What one call of `VitaMTP_Read_Event` returns: a negative value (error) or
an event. -/
inductive ReadResult where
  | error
  | event (ev : vita_event_t)
  deriving DecidableEq, Repr

/-- One blocking read as the reading thread sees it: `stopDuring` says that a
`stop()` call of the controlling thread lands while the read is blocked
(anywhere between the loop test before it and the loop test after it), and
`result` is what the read returns. -/
structure ReadStep where
  stopDuring : Bool
  result : ReadResult
  deriving DecidableEq, Repr

/-- A read during which no `stop()` arrives. -/
def ReadStep.quiet (r : ReadResult) : ReadStep := { stopDuring := false, result := r }

/-- How the `while(isActive())` loop of `enterEventLoop` was left. `pending`
means the thread is still inside a call whose answer the script does not
contain. -/
inductive LoopExit where
  /-- The loop test `isActive()` was false. -/
  | inactive
  /-- The read failed: `break`. -/
  | readError
  /-- The event was `PTP_EC_VITA_RequestTerminate`: `break`. -/
  | terminate
  | pending
  deriving DecidableEq, Repr

/-- The `while(isActive())` loop of `CmaClient::enterEventLoop`. -/
def readLoop (K : PtpCodes) : List ReadStep → CmaState → LoopExit × CmaState
  | [], s =>
    if isActive s then (LoopExit.pending, s.emit Effect.readEvent)
    else (LoopExit.inactive, s)
  | r :: rest, s =>
    if isActive s then
      let s1 := s.emit Effect.readEvent
      let s2 := if r.stopDuring then (stop s1).2 else s1
      match r.result with
      | ReadResult.error => (LoopExit.readError, s2)
      | ReadResult.event ev =>
        if ev.Code = K.PTP_EC_VITA_RequestTerminate then
          (LoopExit.terminate, s2)
        else if ev.Code = K.PTP_EC_VITA_RequestCancelTask then
          readLoop K rest (s2.emit (Effect.vitaEventCancelTask ev ev.Param1))
        else
          readLoop K rest (s2.emit (Effect.setEvent ev))
    else (LoopExit.inactive, s)

/-- Method `CmaClient::enterEventLoop`: start the dispatcher thread, run the
read loop, then stop the dispatcher and join its thread. -/
def enterEventLoop (K : PtpCodes) (script : List ReadStep) (s : CmaState) :
    LoopExit × CmaState :=
  let r := readLoop K script (s.emit Effect.threadStart)
  match r.1 with
  | LoopExit.pending => r
  | _ => (r.1, (r.2.emit Effect.eventLoopStop).emit Effect.threadWait)

/-- The events handed to the dispatcher with `setEvent`, in order. -/
def submitted (tr : List Effect) : List vita_event_t :=
  tr.filterMap fun e => match e with
    | Effect.setEvent ev => some ev
    | _ => none

/-- The inline calls of `vitaEventCancelTask`, in order. -/
def cancelled (tr : List Effect) : List (vita_event_t × Nat) :=
  tr.filterMap fun e => match e with
    | Effect.vitaEventCancelTask ev p => some (ev, p)
    | _ => none

/-- The number of calls of `VitaMTP_Read_Event`. -/
def reads (tr : List Effect) : Nat := tr.count Effect.readEvent

/-- A read result that makes the loop `break`: an error or a Terminate event. -/
def endsLoop (K : PtpCodes) : ReadResult → Bool
  | ReadResult.error => true
  | ReadResult.event ev => decide (ev.Code = K.PTP_EC_VITA_RequestTerminate)

/-- The read results before the first Terminate event or read error. -/
def beforeEnd (K : PtpCodes) (rs : List ReadResult) : List ReadResult :=
  rs.takeWhile fun r => !endsLoop K r

/-- The events among a list of read results. -/
def eventsOf (rs : List ReadResult) : List vita_event_t :=
  rs.filterMap fun r => match r with
    | ReadResult.event ev => some ev
    | ReadResult.error => none

/-! ## One connection -/

/-- What `DeviceCapability::exchangeInfo` answers: failure, or success with the
value of `getOnlineId()` (`none` for `NULL`). -/
inductive ExchangeResult where
  | failed
  | ok (onlineId : Option String)
  deriving DecidableEq, Repr

/-- What the device does during one connection. -/
structure SessionScript where
  exchange : ExchangeResult
  events : List ReadStep
  deriving DecidableEq, Repr

/-- Whether a function returned to its caller or is still inside a call: one
whose answer the script does not contain, or one that cannot return (a
`sema.acquire()` without a permit, a `usbwait.lock()` on the locked mutex). -/
inductive Status where
  | returned
  | pending
  deriving DecidableEq, Repr

/-- The text `tr("Connected to %1 (PS Vita)").arg(id)`, untranslated. -/
def connectedMessage (id : String) : String := "Connected to " ++ id ++ " (PS Vita)"

/-- The tail of `CmaClient::processNewConnection`, from `VitaMTP_SendHostStatus`
to `sema.release()`. -/
def endConnection (s : CmaState) : CmaState :=
  let s1 := (((s.emit Effect.sendHostStatusEndConnection).emit Effect.releaseDevice).emit
    Effect.deviceDisconnected).emit Effect.setAvailable
  { s1 with in_progress := false, sema := s1.sema + 1 }

/-- Method `CmaClient::processNewConnection`, run by the thread that holds
`mutex`. -/
def processNewConnection (K : PtpCodes) (sc : SessionScript) (s : CmaState) :
    Status × CmaState :=
  let s1 := ((({ s with in_progress := true }).emit Effect.setUnavailable).emit
    Effect.getIdentification).emit Effect.exchangeInfo
  match sc.exchange with
  | ExchangeResult.failed => (Status.returned, endConnection s1)
  | ExchangeResult.ok onlineId =>
    let s2 := match onlineId with
      | some id => ({ s1 with lastOnlineId := some id }).emit
          (Effect.deviceConnected (connectedMessage id))
      | none => s1.emit (Effect.deviceConnected (connectedMessage (s1.lastOnlineId.getD "default")))
    let r := enterEventLoop K sc.events s2
    match r.1 with
    | LoopExit.pending => (Status.pending, r.2)
    | _ => (Status.returned, endConnection r.2)

/-! ## The discovery loops, one thread at a time -/

/-- One pass through the body of a discovery loop: a device shows up and the
session runs as scripted, or none does; `stopDuring` says that a `stop()` call
of the controlling thread lands during the discovery call or the wait. -/
inductive DiscoveryStep where
  | found (sc : SessionScript)
  | notFound (stopDuring : Bool)
  deriving DecidableEq, Repr

/-- The block `mutex.lock(); if(in_progress) sema.acquire(); mutex.unlock();`.
With no permit available `sema.acquire()` does not return. -/
def waitForSession (s : CmaState) : Status × CmaState :=
  if s.in_progress then
    if 0 < s.sema then (Status.returned, { s with sema := s.sema - 1 })
    else (Status.pending, s)
  else (Status.returned, s)

/-- The body of the `do` loop of `CmaClient::connectUsb`, run by the thread
that holds `usbwait`. The call `usbcondition.wait(&usbwait, 2000)` unlocks
`usbwait` while it waits and locks it again before it returns, so `usbwait` is
as before once the call is over. -/
def usbBody (K : PtpCodes) (d : DiscoveryStep) (s : CmaState) : Status × CmaState :=
  let s1 := s.emit Effect.getFirstUsbVita
  match d with
  | DiscoveryStep.found sc => processNewConnection K sc s1
  | DiscoveryStep.notFound stopDuring =>
    let s2 := s1.emit Effect.usbConditionWait
    let s3 := if stopDuring then (stop s2).2 else s2
    waitForSession s3

/-- The `do ... while(isActive())` loop of `CmaClient::connectUsb` followed by
`emit finished()`. -/
def usbLoop (K : PtpCodes) : List DiscoveryStep → CmaState → Status × CmaState
  | [], s => (Status.pending, s.emit Effect.getFirstUsbVita)
  | d :: rest, s =>
    let r := usbBody K d s
    match r.1 with
    | Status.pending => r
    | Status.returned =>
      if isActive r.2 then usbLoop K rest r.2
      else (Status.returned, r.2.emit Effect.finished)

/-- Method `CmaClient::connectUsb`: `setActive(true)`, then `usbwait.lock()`,
then the loop. `usbwait` is a plain `QMutex` that no statement of the class
unlocks, so on a locked `usbwait` the call of `lock()` does not return and the
loop is never reached. -/
def connectUsb (K : PtpCodes) (script : List DiscoveryStep) (s : CmaState) :
    Status × CmaState :=
  let s1 := setActive true s
  if s1.usbwait then (Status.pending, s1)
  else usbLoop K script { s1 with usbwait := true }

/-- The body of the `do` loop of `CmaClient::connectWireless`. -/
def wirelessBody (K : PtpCodes) (d : DiscoveryStep) (s : CmaState) : Status × CmaState :=
  let s1 := s.emit Effect.getFirstWirelessVita
  match d with
  | DiscoveryStep.found sc => processNewConnection K sc s1
  | DiscoveryStep.notFound stopDuring =>
    let s2 := if stopDuring then (stop s1).2 else s1
    let r := waitForSession s2
    match r.1 with
    | Status.pending => r
    | Status.returned =>
      if isActive r.2 then (Status.returned, r.2.emit Effect.sleep2000)
      else r

/-- The `do ... while(isActive())` loop of `CmaClient::connectWireless` followed
by `emit finished()`. -/
def wirelessLoop (K : PtpCodes) : List DiscoveryStep → CmaState → Status × CmaState
  | [], s => (Status.pending, s.emit Effect.getFirstWirelessVita)
  | d :: rest, s =>
    let r := wirelessBody K d s
    match r.1 with
    | Status.pending => r
    | Status.returned =>
      if isActive r.2 then wirelessLoop K rest r.2
      else (Status.returned, r.2.emit Effect.finished)

/-- Method `CmaClient::connectWireless`. -/
def connectWireless (K : PtpCodes) (script : List DiscoveryStep) (s : CmaState) :
    Status × CmaState :=
  wirelessLoop K script (setActive true s)

/-- Sample values for the two event codes. -/
def sampleCodes : PtpCodes :=
  { PTP_EC_VITA_RequestTerminate := 2, PTP_EC_VITA_RequestCancelTask := 1 }

/-- An event with the given code and first parameter. -/
def mkEvent (code p1 : Nat) : vita_event_t :=
  { Code := code, Param1 := p1, Param2 := 0, Param3 := 0 }

/-! ## The discovery threads side by side

The synchronisation skeleton of `connectUsb`, `connectWireless` and
`processNewConnection`: every thread has a program point, and one step of a
thread executes the statement at its program point on the shared variables
`mutex`, `in_progress`, `is_active` and `sema`. The mutex `usbwait` is left out
here: it can only keep a USB thread from moving, so every schedule of the code
is a schedule of this system. -/

/-- Which loop a discovery thread runs. -/
inductive TransportKind where
  | usb
  | wireless
  deriving DecidableEq, Repr

/-- A discovery thread: the loop it runs and a number telling apart threads
created by different calls of start. -/
structure Tid where
  kind : TransportKind
  idx : Nat
  deriving DecidableEq, Repr

/-- The statement a discovery thread executes next. -/
inductive Pc where
  /-- Next is `setActive(true)` at the head of `connectUsb` / `connectWireless`. -/
  | start
  /-- Next is the discovery call at the top of the `do` body. -/
  | discover
  /-- Next is `usbcondition.wait(&usbwait, 2000)` (USB only). -/
  | usbWait
  /-- Next is `QMutexLocker locker(&mutex)` at the head of `processNewConnection`. -/
  | lockSession
  /-- Next is `in_progress = true; broadcast.setUnavailable()`. -/
  | setProgress
  /-- Inside the identity exchange and the event loop. -/
  | session
  /-- Next is the teardown up to `in_progress = false`. -/
  | clearProgress
  /-- Next is `sema.release()`. -/
  | release
  /-- Next is the destructor of `locker`, which unlocks `mutex`. -/
  | unlockSession
  /-- Next is `mutex.lock()` in the branch without a device. -/
  | lockCheck
  /-- Next is the test `if(in_progress)`. -/
  | check
  /-- Next is `sema.acquire()`. -/
  | acquire
  /-- Next is `mutex.unlock()`. -/
  | unlockCheck
  /-- Next is `if(isActive()) Sleeper::sleep(2000)` (wireless only). -/
  | sleepTest
  /-- Next is the loop test `while(isActive())`. -/
  | loopTest
  /-- After `emit finished()`. -/
  | done
  deriving DecidableEq, Repr

/-- The shared variables, the program point of every thread, and two counters
that only record history: how often `sema.release()` and `sema.acquire()` have
completed. -/
structure Sys where
  pc : Tid → Pc
  /-- The thread that holds `CmaClient::mutex`, if any. -/
  mutex : Option Tid
  in_progress : Bool
  is_active : Bool
  sema : Nat
  released : Nat
  acquired : Nat

/-- Program start: no thread has begun, `mutex` is free, both flags are false
and the semaphore has no permit. -/
def Sys.initial : Sys :=
  { pc := fun _ => Pc.start, mutex := none, in_progress := false, is_active := false,
    sema := 0, released := 0, acquired := 0 }

/-- Move thread `t` to program point `p`. -/
def Sys.goto (s : Sys) (t : Tid) (p : Pc) : Sys :=
  { s with pc := Function.update s.pc t p }

/-- What the scheduler picks next: thread `t` executes its next statement
(`answer` is what the environment answers if that statement asks it: whether
the discovery call found a device, whether the session has reached its end), or
the controlling thread calls `stop()`. -/
inductive Action where
  | run (t : Tid) (answer : Bool)
  | stop
  deriving DecidableEq, Repr

/-- One step of the system; `none` when the chosen thread cannot move (it waits
for `mutex` or for a permit, or it has finished). -/
def step : Action → Sys → Option Sys
  | Action.stop, s => some (if s.is_active then { s with is_active := false } else s)
  | Action.run t answer, s =>
    match s.pc t with
    | Pc.start => some { s.goto t Pc.discover with is_active := true }
    | Pc.discover =>
      if answer then some (s.goto t Pc.lockSession)
      else match t.kind with
        | TransportKind.usb => some (s.goto t Pc.usbWait)
        | TransportKind.wireless => some (s.goto t Pc.lockCheck)
    | Pc.usbWait => some (s.goto t Pc.lockCheck)
    | Pc.lockSession =>
      if s.mutex = none then some { s.goto t Pc.setProgress with mutex := some t } else none
    | Pc.setProgress => some { s.goto t Pc.session with in_progress := true }
    | Pc.session => some (s.goto t (if answer then Pc.clearProgress else Pc.session))
    | Pc.clearProgress => some { s.goto t Pc.release with in_progress := false }
    | Pc.release =>
      some { s.goto t Pc.unlockSession with sema := s.sema + 1, released := s.released + 1 }
    | Pc.unlockSession => some { s.goto t Pc.loopTest with mutex := none }
    | Pc.lockCheck =>
      if s.mutex = none then some { s.goto t Pc.check with mutex := some t } else none
    | Pc.check => some (s.goto t (if s.in_progress then Pc.acquire else Pc.unlockCheck))
    | Pc.acquire =>
      if 0 < s.sema then
        some { s.goto t Pc.unlockCheck with sema := s.sema - 1, acquired := s.acquired + 1 }
      else none
    | Pc.unlockCheck =>
      match t.kind with
      | TransportKind.usb => some { s.goto t Pc.loopTest with mutex := none }
      | TransportKind.wireless => some { s.goto t Pc.sleepTest with mutex := none }
    | Pc.sleepTest => some (s.goto t Pc.loopTest)
    | Pc.loopTest => some (s.goto t (if s.is_active then Pc.discover else Pc.done))
    | Pc.done => none

/-- Run a schedule from left to right; a thread that cannot move when it is
picked stays where it is. -/
def exec : List Action → Sys → Sys
  | [], s => s
  | a :: rest, s => exec rest ((step a s).getD s)

/-- The program points inside `processNewConnection` after `locker` has been
constructed: the thread is servicing a device. -/
def Pc.inSession : Pc → Bool
  | Pc.setProgress | Pc.session | Pc.clearProgress | Pc.release | Pc.unlockSession => true
  | _ => false

/-- The program points at which the thread has set `in_progress` and not yet
cleared it. -/
def Pc.progressSet : Pc → Bool
  | Pc.session | Pc.clearProgress => true
  | _ => false

/-- The program points at which the thread holds `mutex`. -/
def Pc.holdsMutex : Pc → Bool
  | Pc.setProgress | Pc.session | Pc.clearProgress | Pc.release | Pc.unlockSession
  | Pc.check | Pc.acquire | Pc.unlockCheck => true
  | _ => false

/-- What holds in every reachable state: a thread at a program point inside a
locked region is the owner of `mutex`; `in_progress` is true exactly while some
thread is between setting and clearing it; no thread is at `sema.acquire()`;
no permit was ever acquired, so the permits available are all those released. -/
def Sys.Inv (s : Sys) : Prop :=
  (∀ t, (s.pc t).holdsMutex = true → s.mutex = some t) ∧
  (s.in_progress = true → ∃ t, (s.pc t).progressSet = true) ∧
  (∀ t, (s.pc t).progressSet = true → s.in_progress = true) ∧
  (∀ t, s.pc t ≠ Pc.acquire) ∧
  s.acquired = 0 ∧ s.sema = s.released

/-- The first USB thread. -/
def usbThread : Tid := { kind := TransportKind.usb, idx := 0 }

/-- The first wireless thread. -/
def wirelessThread : Tid := { kind := TransportKind.wireless, idx := 0 }

/-! ## Sample inputs -/

/-- An active manager with nothing else set (the wireless loop was started, the
USB loop was not, so `usbwait` is free). -/
def activeState : CmaState := { CmaState.initial with is_active := true }

/-- A first pairing request. -/
def requestOne : wireless_vita_info_t := { name := "vita-one", mac_addr := "00:00:00:00:00:01" }

/-- A second pairing request. -/
def requestTwo : wireless_vita_info_t := { name := "vita-two", mac_addr := "00:00:00:00:00:02" }

/-- A generic event A. -/
def genericA : vita_event_t := mkEvent 7 0

/-- A generic event B. -/
def genericB : vita_event_t := mkEvent 8 0

/-- A generic event C. -/
def genericC : vita_event_t := mkEvent 9 0

/-- A Terminate event for `sampleCodes`. -/
def terminateEvent : vita_event_t := mkEvent 2 0

/-- A CancelTask event for `sampleCodes`, for task 5. -/
def cancelEvent : vita_event_t := mkEvent 1 5

/-- The scripted event source GenericA, GenericB, Terminate, GenericC. -/
def scriptedReads : List ReadResult :=
  [ReadResult.event genericA, ReadResult.event genericB, ReadResult.event terminateEvent,
   ReadResult.event genericC]

/-- A scripted event source with a CancelTask between two generic events. -/
def scriptedReadsWithCancel : List ReadResult :=
  [ReadResult.event genericA, ReadResult.event cancelEvent, ReadResult.event genericB,
   ReadResult.event terminateEvent, ReadResult.event genericC]

/-- GenericA arrives while `stop()` is called, then GenericB, then Terminate. -/
def stoppedReads : List ReadStep :=
  [{ stopDuring := true, result := ReadResult.event genericA },
   ReadStep.quiet (ReadResult.event genericB),
   ReadStep.quiet (ReadResult.event terminateEvent)]

/-- A session with a successful exchange during which `stop()` arrives while
the device sends Terminate. -/
def sessionThenStop : List DiscoveryStep :=
  [DiscoveryStep.found
    { exchange := ExchangeResult.ok (some "vita"),
      events := [{ stopDuring := true, result := ReadResult.event terminateEvent }] }]

/-- Two sessions, the first with a failed exchange, the second with a
successful one ended by Terminate while `stop()` arrives. -/
def twoSessions : List DiscoveryStep :=
  DiscoveryStep.found { exchange := ExchangeResult.failed, events := [] } :: sessionThenStop

/-- Both threads start and find a device at the same time; the USB thread gets
`mutex` first and runs its session while the wireless thread keeps trying. -/
def contendedSchedule : List Action :=
  [Action.run usbThread true, Action.run wirelessThread true,
   Action.run usbThread true, Action.run wirelessThread true,
   Action.run usbThread true, Action.run wirelessThread true,
   Action.run usbThread true, Action.run wirelessThread true]

/-! ## Theorems: `stop` -/

/-- C2: `stop()` on an inactive manager returns -1 and changes nothing (same
state, same trace, so neither the wireless cancel nor the USB wake is issued);
on an active manager it returns 0, clears the active flag and issues exactly
the wireless cancel and the USB wake; so it fails exactly when the manager was
inactive. -/
theorem stop_fails_iff_inactive (s : CmaState) :
    (s.is_active = false → stop s = (-1, s)) ∧
    (s.is_active = true →
      (stop s).1 = 0 ∧ (stop s).2.is_active = false ∧
      (stop s).2.trace = s.trace ++ [Effect.cancelGetWirelessVita, Effect.usbWakeAll]) ∧
    ((stop s).1 = -1 ↔ s.is_active = false) ∧
    ((stop s).1 = 0 ↔ s.is_active = true) := by
  cases h : s.is_active <;> simp [stop, isActive, setActive, CmaState.emit, h]

/-- C2 at the initial (inactive) state and at an active state. -/
theorem stop_fails_iff_inactive_witness :
    stop CmaState.initial = (-1, CmaState.initial) ∧
    ((stop activeState).1 = 0 ∧ (stop activeState).2.is_active = false ∧
      (stop activeState).2.trace =
        activeState.trace ++ [Effect.cancelGetWirelessVita, Effect.usbWakeAll]) :=
  ⟨(stop_fails_iff_inactive CmaState.initial).1 rfl,
   (stop_fails_iff_inactive activeState).2.1 rfl⟩

/-! ## Theorems: pairing -/

/-- Bitwise or never exceeds the sum. -/
theorem lor_le_add : ∀ a b : Nat, a ||| b ≤ a + b := by
  intro a
  induction a using Nat.binaryRec with
  | z => intro b; simp
  | f x m ih =>
    intro b
    induction b using Nat.binaryRec with
    | z => simp
    | f y n _ =>
      rw [Nat.lor_bit]
      have := ih n
      simp only [Nat.bit_val]
      cases x <;> cases y <;> simp <;> omega

/-- C3: for every pair of random draws and every request, the PIN returned by
`generatePin` is at most 99999999 (and non-negative) and the error code is 0. -/
theorem generatePin_range (info : wireless_vita_info_t) (x y : Nat) (s : CmaState) :
    0 ≤ (generatePin info x y s).1 ∧ (generatePin info x y s).1 ≤ 99999999 ∧
    (generatePin info x y s).2.1 = 0 := by
  refine ⟨Nat.zero_le _, ?_, rfl⟩
  show (x % 10000 * 10000) ||| (y % 10000) ≤ 99999999
  have h := lor_le_add (x % 10000 * 10000) (y % 10000)
  have hx : x % 10000 < 10000 := Nat.mod_lt _ (by decide)
  have hy : y % 10000 < 10000 := Nat.mod_lt _ (by decide)
  omega

/-- C10: with the draws 1 and 16 the PIN computed by `generatePin` is 10000,
while the decimal concatenation of the two halves is 10016: the halves are
combined with bitwise or, not with addition. -/
theorem generatePin_not_decimalConcat :
    (generatePin requestOne 1 16 CmaState.initial).1 = 10000 ∧
    decimalConcat 1 16 = 10016 ∧
    (generatePin requestOne 1 16 CmaState.initial).1 ≠ decimalConcat 1 16 := by
  decide

/-- C4: after `generatePin` for `r1` and then for `r2` the tentative identifier
is the one `generatePin` for `r2` alone leaves, namely the name of `r2`; a
following `registrationComplete` persists exactly that name; and after any run
of earlier pairing attempts `registrationComplete` persists the name of the
most recent request. -/
theorem registrationComplete_persists_latest (r1 r2 : wireless_vita_info_t)
    (x1 y1 x2 y2 : Nat) (s : CmaState)
    (earlier : List (wireless_vita_info_t × Nat × Nat)) :
    (generatePin r2 x2 y2 (generatePin r1 x1 y1 s).2.2).2.2.tempOnlineId =
      (generatePin r2 x2 y2 s).2.2.tempOnlineId ∧
    (generatePin r2 x2 y2 (generatePin r1 x1 y1 s).2.2).2.2.tempOnlineId = r2.name ∧
    (registrationComplete (generatePin r2 x2 y2 (generatePin r1 x1 y1 s).2.2).2.2).lastOnlineId =
      some r2.name ∧
    (registrationComplete (pairingAttempts (earlier ++ [(r2, x2, y2)]) s)).lastOnlineId =
      some r2.name := by
  refine ⟨rfl, rfl, rfl, ?_⟩
  induction earlier generalizing s with
  | nil => rfl
  | cons a rest ih =>
    obtain ⟨info, x, y⟩ := a
    exact ih (generatePin info x y s).2.2

/-! ## Theorems: a connection whose identity exchange fails -/

/-- C5: when the identity exchange fails, `processNewConnection` returns, leaves
the persisted identifier untouched, emits no connected notification and makes
no event read (the effects are exactly: set unavailable, identification,
exchange, end of connection, release, disconnected, set available), ends with `in_progress`
false and one permit released; and the discovery loop of either transport then
goes on with the rest of its script (for `connectUsb`: unless `usbwait` was
already locked, in which case it never got to the discovery call). -/
theorem processNewConnection_exchange_failed (K : PtpCodes) (events : List ReadStep)
    (s : CmaState) (rest : List DiscoveryStep) :
    (processNewConnection K ⟨ExchangeResult.failed, events⟩ s).1 = Status.returned ∧
    (processNewConnection K ⟨ExchangeResult.failed, events⟩ s).2.lastOnlineId = s.lastOnlineId ∧
    (processNewConnection K ⟨ExchangeResult.failed, events⟩ s).2.in_progress = false ∧
    (processNewConnection K ⟨ExchangeResult.failed, events⟩ s).2.trace =
      s.trace ++ [Effect.setUnavailable, Effect.getIdentification, Effect.exchangeInfo,
        Effect.sendHostStatusEndConnection, Effect.releaseDevice,
        Effect.deviceDisconnected, Effect.setAvailable] ∧
    (processNewConnection K ⟨ExchangeResult.failed, events⟩ s).2.sema = s.sema + 1 ∧
    (processNewConnection K ⟨ExchangeResult.failed, events⟩ s).2.is_active = s.is_active ∧
    connectUsb K (DiscoveryStep.found ⟨ExchangeResult.failed, events⟩ :: rest) s =
      (if s.usbwait then (Status.pending, setActive true s)
       else usbLoop K rest (processNewConnection K ⟨ExchangeResult.failed, events⟩
        (({ setActive true s with usbwait := true }).emit Effect.getFirstUsbVita)).2) ∧
    connectWireless K (DiscoveryStep.found ⟨ExchangeResult.failed, events⟩ :: rest) s =
      wirelessLoop K rest (processNewConnection K ⟨ExchangeResult.failed, events⟩
        ((setActive true s).emit Effect.getFirstWirelessVita)).2 := by
  refine ⟨rfl, rfl, rfl, ?_, rfl, rfl, ?_, ?_⟩
  · simp [processNewConnection, endConnection, CmaState.emit]
  · cases h : s.usbwait <;>
      simp [connectUsb, usbLoop, usbBody, processNewConnection, endConnection, CmaState.emit,
        setActive, isActive, h]
  · simp [connectWireless, wirelessLoop, wirelessBody, processNewConnection, endConnection,
      CmaState.emit, setActive, isActive]

/-! ## Theorems: the event loop -/

/-- The list `submitted` distributes over append. -/
theorem submitted_append (tr tr2 : List Effect) :
    submitted (tr ++ tr2) = submitted tr ++ submitted tr2 := by
  simp [submitted, List.filterMap_append]

/-- The list `cancelled` distributes over append. -/
theorem cancelled_append (tr tr2 : List Effect) :
    cancelled (tr ++ tr2) = cancelled tr ++ cancelled tr2 := by
  simp [cancelled, List.filterMap_append]

/-- The count `reads` distributes over append. -/
theorem reads_append (tr tr2 : List Effect) :
    reads (tr ++ tr2) = reads tr + reads tr2 := by
  simp [reads, List.count_append]

/-- A quiet read that fails ends the loop. -/
theorem readLoop_quiet_error (K : PtpCodes) (rest : List ReadStep) (s : CmaState)
    (h : s.is_active = true) :
    readLoop K (ReadStep.quiet ReadResult.error :: rest) s =
      (LoopExit.readError, s.emit Effect.readEvent) := by
  simp [readLoop, isActive, h, ReadStep.quiet]

/-- A quiet read that returns Terminate ends the loop. -/
theorem readLoop_quiet_terminate (K : PtpCodes) (rest : List ReadStep) (s : CmaState)
    (ev : vita_event_t) (h : s.is_active = true)
    (ht : ev.Code = K.PTP_EC_VITA_RequestTerminate) :
    readLoop K (ReadStep.quiet (ReadResult.event ev) :: rest) s =
      (LoopExit.terminate, s.emit Effect.readEvent) := by
  simp [readLoop, isActive, h, ReadStep.quiet, ht]

/-- A quiet read that returns CancelTask calls the inline handler and goes on. -/
theorem readLoop_quiet_cancel (K : PtpCodes) (rest : List ReadStep) (s : CmaState)
    (ev : vita_event_t) (h : s.is_active = true)
    (ht : ev.Code ≠ K.PTP_EC_VITA_RequestTerminate)
    (hc : ev.Code = K.PTP_EC_VITA_RequestCancelTask) :
    readLoop K (ReadStep.quiet (ReadResult.event ev) :: rest) s =
      readLoop K rest
        ((s.emit Effect.readEvent).emit (Effect.vitaEventCancelTask ev ev.Param1)) := by
  rw [readLoop]
  simp only [isActive, h, ReadStep.quiet, if_true, Bool.false_eq_true, if_false]
  rw [if_neg ht, if_pos hc]

/-- A quiet read that returns any other event submits it and goes on. -/
theorem readLoop_quiet_other (K : PtpCodes) (rest : List ReadStep) (s : CmaState)
    (ev : vita_event_t) (h : s.is_active = true)
    (ht : ev.Code ≠ K.PTP_EC_VITA_RequestTerminate)
    (hc : ev.Code ≠ K.PTP_EC_VITA_RequestCancelTask) :
    readLoop K (ReadStep.quiet (ReadResult.event ev) :: rest) s =
      readLoop K rest ((s.emit Effect.readEvent).emit (Effect.setEvent ev)) := by
  rw [readLoop]
  simp only [isActive, h, ReadStep.quiet, if_true, Bool.false_eq_true, if_false]
  rw [if_neg ht, if_neg hc]

/-- The served part of a script that starts with an event other than Terminate. -/
theorem beforeEnd_cons_event (K : PtpCodes) (rest : List ReadResult) (ev : vita_event_t)
    (ht : ev.Code ≠ K.PTP_EC_VITA_RequestTerminate) :
    beforeEnd K (ReadResult.event ev :: rest) = ReadResult.event ev :: beforeEnd K rest := by
  simp [beforeEnd, endsLoop, ht]

/-- The read loop on a script without `stop()`, started active. -/
theorem readLoop_quiet (K : PtpCodes) (rs : List ReadResult) :
    ∀ s : CmaState, s.is_active = true →
    submitted (readLoop K (rs.map ReadStep.quiet) s).2.trace =
      submitted s.trace ++ (eventsOf (beforeEnd K rs)).filter
        (fun ev => decide (ev.Code ≠ K.PTP_EC_VITA_RequestCancelTask)) ∧
    cancelled (readLoop K (rs.map ReadStep.quiet) s).2.trace =
      cancelled s.trace ++ ((eventsOf (beforeEnd K rs)).filter
        (fun ev => decide (ev.Code = K.PTP_EC_VITA_RequestCancelTask))).map
          (fun ev => (ev, ev.Param1)) ∧
    reads (readLoop K (rs.map ReadStep.quiet) s).2.trace =
      reads s.trace + ((beforeEnd K rs).length + 1) ∧
    (readLoop K (rs.map ReadStep.quiet) s).1 ≠ LoopExit.inactive ∧
    ((readLoop K (rs.map ReadStep.quiet) s).1 = LoopExit.pending ↔ beforeEnd K rs = rs) := by
  induction rs with
  | nil =>
    intro s h
    simp [readLoop, isActive, h, CmaState.emit, submitted_append, cancelled_append,
      reads_append, beforeEnd, eventsOf]
    simp [submitted, cancelled, reads]
  | cons r rest ih =>
    intro s h
    cases r with
    | error =>
      rw [List.map_cons, readLoop_quiet_error K _ s h]
      simp [CmaState.emit, submitted_append, cancelled_append,
        reads_append, beforeEnd, eventsOf, endsLoop]
      simp [submitted, cancelled, reads]
    | event ev =>
      by_cases ht : ev.Code = K.PTP_EC_VITA_RequestTerminate
      · rw [List.map_cons, readLoop_quiet_terminate K _ s ev h ht]
        simp [CmaState.emit, submitted_append, cancelled_append,
          reads_append, beforeEnd, eventsOf, endsLoop, ht]
        simp [submitted, cancelled, reads]
      · by_cases hc : ev.Code = K.PTP_EC_VITA_RequestCancelTask
        · obtain ⟨h1, h2, h3, h4, h5⟩ :=
            ih ((s.emit Effect.readEvent).emit (Effect.vitaEventCancelTask ev ev.Param1)) h
          rw [List.map_cons, readLoop_quiet_cancel K _ s ev h ht hc,
            beforeEnd_cons_event K rest ev ht]
          refine ⟨?_, ?_, ?_, h4, ?_⟩
          · rw [h1]
            simp [CmaState.emit, submitted_append, eventsOf, hc]
            simp [submitted]
          · rw [h2]
            simp [CmaState.emit, cancelled_append, eventsOf, hc]
            simp [cancelled]
          · rw [h3]
            simp [CmaState.emit, reads_append]
            simp [reads]
            omega
          · rw [h5]
            simp
        · obtain ⟨h1, h2, h3, h4, h5⟩ :=
            ih ((s.emit Effect.readEvent).emit (Effect.setEvent ev)) h
          rw [List.map_cons, readLoop_quiet_other K _ s ev h ht hc,
            beforeEnd_cons_event K rest ev ht]
          refine ⟨?_, ?_, ?_, h4, ?_⟩
          · rw [h1]
            simp [CmaState.emit, submitted_append, eventsOf, hc]
            simp [submitted]
          · rw [h2]
            simp [CmaState.emit, cancelled_append, eventsOf, hc]
            simp [cancelled]
          · rw [h3]
            simp [CmaState.emit, reads_append]
            simp [reads]
            omega
          · rw [h5]
            simp

/-- Whatever follows a read that ends the loop has no influence: it is never
read. -/
theorem readLoop_ignores_after_end (K : PtpCodes) (pre post : List ReadStep) (r : ReadStep)
    (hr : endsLoop K r.result = true) :
    ∀ s : CmaState, readLoop K (pre ++ r :: post) s = readLoop K (pre ++ [r]) s := by
  induction pre with
  | nil =>
    intro s
    obtain ⟨sd, res⟩ := r
    cases res with
    | error => simp [readLoop]
    | event ev =>
      have ht : ev.Code = K.PTP_EC_VITA_RequestTerminate := by simpa [endsLoop] using hr
      simp [readLoop, ht]
  | cons a rest ih =>
    intro s
    show readLoop K (a :: (rest ++ r :: post)) s = readLoop K (a :: (rest ++ [r])) s
    rw [readLoop, readLoop]
    simp only [ih]

/-- The exit of `enterEventLoop` is the exit of its read loop. -/
theorem enterEventLoop_exit (K : PtpCodes) (script : List ReadStep) (s : CmaState) :
    (enterEventLoop K script s).1 = (readLoop K script (s.emit Effect.threadStart)).1 := by
  unfold enterEventLoop
  generalize readLoop K script (s.emit Effect.threadStart) = r
  obtain ⟨ex, s1⟩ := r
  cases ex <;> rfl

/-- After its read loop `enterEventLoop` only stops the dispatcher and joins its
thread, and not even that while a read is pending. -/
theorem enterEventLoop_trace (K : PtpCodes) (script : List ReadStep) (s : CmaState) :
    (enterEventLoop K script s).2.trace =
      (readLoop K script (s.emit Effect.threadStart)).2.trace ++
        (if (readLoop K script (s.emit Effect.threadStart)).1 = LoopExit.pending then []
         else [Effect.eventLoopStop, Effect.threadWait]) := by
  unfold enterEventLoop
  generalize readLoop K script (s.emit Effect.threadStart) = r
  obtain ⟨ex, s1⟩ := r
  cases ex <;> simp [CmaState.emit]

/-- The events submitted by `enterEventLoop` are those of its read loop. -/
theorem enterEventLoop_observed (K : PtpCodes) (script : List ReadStep) (s : CmaState) :
    submitted (enterEventLoop K script s).2.trace =
      submitted (readLoop K script (s.emit Effect.threadStart)).2.trace ∧
    cancelled (enterEventLoop K script s).2.trace =
      cancelled (readLoop K script (s.emit Effect.threadStart)).2.trace ∧
    reads (enterEventLoop K script s).2.trace =
      reads (readLoop K script (s.emit Effect.threadStart)).2.trace := by
  rw [enterEventLoop_trace, submitted_append, cancelled_append, reads_append]
  split <;> simp [submitted, cancelled, reads]

/-- C1: on a script during which no `stop()` arrives and with the manager
active, `enterEventLoop` hands to `setEvent` exactly the events before the
first Terminate or read error that are not CancelTask, in order; it calls
`vitaEventCancelTask` exactly once, with `Param1`, for each CancelTask before
that point; it calls the read once for each result before that point and once
more (the read that returns Terminate or the error, or that never returns), so
nothing after the Terminate is read; the loop is never left through its
`isActive()` test; and the outcome does not depend on what the script holds
after a Terminate or read error. -/
theorem enterEventLoop_dispatches_until_terminate (K : PtpCodes) (rs : List ReadResult)
    (s : CmaState) (h : s.is_active = true) :
    submitted (enterEventLoop K (rs.map ReadStep.quiet) s).2.trace =
      submitted s.trace ++ (eventsOf (beforeEnd K rs)).filter
        (fun ev => decide (ev.Code ≠ K.PTP_EC_VITA_RequestCancelTask)) ∧
    cancelled (enterEventLoop K (rs.map ReadStep.quiet) s).2.trace =
      cancelled s.trace ++ ((eventsOf (beforeEnd K rs)).filter
        (fun ev => decide (ev.Code = K.PTP_EC_VITA_RequestCancelTask))).map
          (fun ev => (ev, ev.Param1)) ∧
    reads (enterEventLoop K (rs.map ReadStep.quiet) s).2.trace =
      reads s.trace + ((beforeEnd K rs).length + 1) ∧
    (enterEventLoop K (rs.map ReadStep.quiet) s).1 ≠ LoopExit.inactive ∧
    ((enterEventLoop K (rs.map ReadStep.quiet) s).1 = LoopExit.pending ↔ beforeEnd K rs = rs) ∧
    (∀ (t : ReadResult) (post : List ReadResult), endsLoop K t = true →
      enterEventLoop K ((rs ++ t :: post).map ReadStep.quiet) s =
        enterEventLoop K ((rs ++ [t]).map ReadStep.quiet) s) := by
  obtain ⟨h1, h2, h3, h4, h5⟩ :=
    readLoop_quiet K rs (s.emit Effect.threadStart) h
  have e1 : submitted (s.emit Effect.threadStart).trace = submitted s.trace := by
    simp [CmaState.emit, submitted_append]; simp [submitted]
  have e2 : cancelled (s.emit Effect.threadStart).trace = cancelled s.trace := by
    simp [CmaState.emit, cancelled_append]; simp [cancelled]
  have e3 : reads (s.emit Effect.threadStart).trace = reads s.trace := by
    simp [CmaState.emit, reads_append]; simp [reads]
  rw [e1] at h1
  rw [e2] at h2
  rw [e3] at h3
  obtain ⟨o1, o2, o3⟩ := enterEventLoop_observed K (rs.map ReadStep.quiet) s
  refine ⟨o1.trans h1, o2.trans h2, o3.trans h3, ?_, ?_, ?_⟩
  · rw [enterEventLoop_exit]; exact h4
  · rw [enterEventLoop_exit]; exact h5
  · intro t post ht
    unfold enterEventLoop
    simp only [List.map_append, List.map_cons, List.map_nil]
    rw [readLoop_ignores_after_end K _ _ (ReadStep.quiet t) (by simpa [ReadStep.quiet] using ht)]

/-- C1 on the scripted source GenericA, GenericB, Terminate, GenericC: the
dispatcher receives exactly GenericA and GenericB, three reads are made, and
GenericC is never submitted; with a CancelTask in between, the inline handler
is called once and the loop goes on. -/
theorem enterEventLoop_dispatches_until_terminate_witness :
    activeState.is_active = true ∧
    (submitted (enterEventLoop sampleCodes (scriptedReads.map ReadStep.quiet)
        activeState).2.trace =
      submitted activeState.trace ++ (eventsOf (beforeEnd sampleCodes scriptedReads)).filter
        (fun ev => decide (ev.Code ≠ sampleCodes.PTP_EC_VITA_RequestCancelTask))) ∧
    submitted (enterEventLoop sampleCodes (scriptedReads.map ReadStep.quiet)
        activeState).2.trace = [genericA, genericB] ∧
    reads (enterEventLoop sampleCodes (scriptedReads.map ReadStep.quiet)
        activeState).2.trace = 3 ∧
    (enterEventLoop sampleCodes (scriptedReads.map ReadStep.quiet) activeState).1 =
      LoopExit.terminate ∧
    submitted (enterEventLoop sampleCodes (scriptedReadsWithCancel.map ReadStep.quiet)
        activeState).2.trace = [genericA, genericB] ∧
    cancelled (enterEventLoop sampleCodes (scriptedReadsWithCancel.map ReadStep.quiet)
        activeState).2.trace = [(cancelEvent, 5)] ∧
    endsLoop sampleCodes (ReadResult.event terminateEvent) = true ∧
    enterEventLoop sampleCodes
        ((scriptedReads ++ ReadResult.event terminateEvent ::
          [ReadResult.event genericC]).map ReadStep.quiet) activeState =
      enterEventLoop sampleCodes
        ((scriptedReads ++ [ReadResult.event terminateEvent]).map ReadStep.quiet) activeState :=
  ⟨rfl, (enterEventLoop_dispatches_until_terminate sampleCodes scriptedReads activeState rfl).1,
    by decide, by decide, by decide, by decide, by decide, by decide,
    (enterEventLoop_dispatches_until_terminate sampleCodes scriptedReads activeState
      rfl).2.2.2.2.2 (ReadResult.event terminateEvent) [ReadResult.event genericC] (by decide)⟩

/-! ## Theorems: `stop()` while the event loop runs -/

/-- After `stop()` the active flag is false, whatever it was before. -/
theorem stop_clears_active (s : CmaState) : (stop s).2.is_active = false := by
  cases h : s.is_active <;> simp [stop, isActive, setActive, CmaState.emit, h]

/-- The calls `stop()` makes are neither reads nor dispatcher calls. -/
theorem stop_observed (s : CmaState) :
    submitted (stop s).2.trace = submitted s.trace ∧
    cancelled (stop s).2.trace = cancelled s.trace ∧
    reads (stop s).2.trace = reads s.trace := by
  cases h : s.is_active
  · simp [stop, isActive, h]
  · simp [stop, isActive, setActive, CmaState.emit, h, submitted_append, cancelled_append,
      reads_append]
    simp [submitted, cancelled, reads]

/-- With the active flag false the read loop is left at its test, before any
read. -/
theorem readLoop_inactive (K : PtpCodes) (script : List ReadStep) (s : CmaState)
    (h : s.is_active = false) : readLoop K script s = (LoopExit.inactive, s) := by
  cases script <;> simp [readLoop, isActive, h]

/-- Whatever follows a read during which `stop()` arrived has no influence: it
is never read. -/
theorem readLoop_ignores_after_stop (K : PtpCodes) (pre post : List ReadStep) (r : ReadStep)
    (hr : r.stopDuring = true) :
    ∀ s : CmaState, readLoop K (pre ++ r :: post) s = readLoop K (pre ++ [r]) s := by
  induction pre with
  | nil =>
    intro s
    have hs : ∀ e, (((stop (s.emit Effect.readEvent)).2).emit e).is_active = false := by
      intro e
      simpa [CmaState.emit] using stop_clears_active (s.emit Effect.readEvent)
    show readLoop K (r :: post) s = readLoop K [r] s
    rw [readLoop, readLoop]
    simp only [hr, if_true]
    split
    · split
      · rfl
      · split
        · rfl
        · split
          · rw [readLoop_inactive K post _ (hs _), readLoop_inactive K [] _ (hs _)]
          · rw [readLoop_inactive K post _ (hs _), readLoop_inactive K [] _ (hs _)]
    · rfl
  | cons a rest ih =>
    intro s
    show readLoop K (a :: (rest ++ r :: post)) s = readLoop K (a :: (rest ++ [r])) s
    rw [readLoop, readLoop]
    simp only [ih]

/-- Quiet reads that do not end the loop are all served: the loop goes on with
the rest of the script, still active, having submitted the events that are not
CancelTask, cancelled the others inline, and made one read per result. -/
theorem readLoop_quiet_run (K : PtpCodes) (rs : List ReadResult)
    (hrs : ∀ r ∈ rs, endsLoop K r = false) :
    ∀ s : CmaState, s.is_active = true →
    ∃ s1 : CmaState,
      (∀ tail, readLoop K (rs.map ReadStep.quiet ++ tail) s = readLoop K tail s1) ∧
      s1.is_active = true ∧
      submitted s1.trace = submitted s.trace ++ (eventsOf rs).filter
        (fun ev => decide (ev.Code ≠ K.PTP_EC_VITA_RequestCancelTask)) ∧
      cancelled s1.trace = cancelled s.trace ++ ((eventsOf rs).filter
        (fun ev => decide (ev.Code = K.PTP_EC_VITA_RequestCancelTask))).map
          (fun ev => (ev, ev.Param1)) ∧
      reads s1.trace = reads s.trace + rs.length := by
  induction rs with
  | nil =>
    intro s h
    exact ⟨s, fun _ => rfl, h, by simp [eventsOf], by simp [eventsOf], by simp⟩
  | cons r rest ih =>
    intro s h
    have hr := hrs r (List.mem_cons_self _ _)
    have hrest : ∀ x ∈ rest, endsLoop K x = false :=
      fun x hx => hrs x (List.mem_cons_of_mem _ hx)
    cases r with
    | error => simp [endsLoop] at hr
    | event ev =>
      have ht : ev.Code ≠ K.PTP_EC_VITA_RequestTerminate := by simpa [endsLoop] using hr
      by_cases hc : ev.Code = K.PTP_EC_VITA_RequestCancelTask
      · obtain ⟨s1, g0, g1, g2, g3, g4⟩ :=
          ih hrest ((s.emit Effect.readEvent).emit (Effect.vitaEventCancelTask ev ev.Param1)) h
        refine ⟨s1, ?_, g1, ?_, ?_, ?_⟩
        · intro tail
          rw [List.map_cons, List.cons_append, readLoop_quiet_cancel K _ s ev h ht hc]
          exact g0 tail
        · rw [g2]
          simp [CmaState.emit, submitted_append, eventsOf, hc]
          simp [submitted]
        · rw [g3]
          simp [CmaState.emit, cancelled_append, eventsOf, hc]
          simp [cancelled]
        · rw [g4]
          simp [CmaState.emit, reads_append]
          simp [reads]
          omega
      · obtain ⟨s1, g0, g1, g2, g3, g4⟩ :=
          ih hrest ((s.emit Effect.readEvent).emit (Effect.setEvent ev)) h
        refine ⟨s1, ?_, g1, ?_, ?_, ?_⟩
        · intro tail
          rw [List.map_cons, List.cons_append, readLoop_quiet_other K _ s ev h ht hc]
          exact g0 tail
        · rw [g2]
          simp [CmaState.emit, submitted_append, eventsOf, hc]
          simp [submitted]
        · rw [g3]
          simp [CmaState.emit, cancelled_append, eventsOf, hc]
          simp [cancelled]
        · rw [g4]
          simp [CmaState.emit, reads_append]
          simp [reads]
          omega

/-- The read during which `stop()` arrives, returning an event that is not
Terminate: the event is still handled, then the loop is left at its test. -/
theorem readLoop_stopped_read (K : PtpCodes) (post : List ReadStep) (ev : vita_event_t)
    (s : CmaState) (h : s.is_active = true)
    (ht : ev.Code ≠ K.PTP_EC_VITA_RequestTerminate) :
    (readLoop K ({ stopDuring := true, result := ReadResult.event ev } :: post) s).1 =
      LoopExit.inactive ∧
    (readLoop K ({ stopDuring := true, result := ReadResult.event ev } :: post) s).2.is_active =
      false ∧
    submitted (readLoop K ({ stopDuring := true, result := ReadResult.event ev } :: post)
        s).2.trace =
      submitted s.trace ++ [ev].filter
        (fun ev => decide (ev.Code ≠ K.PTP_EC_VITA_RequestCancelTask)) ∧
    cancelled (readLoop K ({ stopDuring := true, result := ReadResult.event ev } :: post)
        s).2.trace =
      cancelled s.trace ++ ([ev].filter
        (fun ev => decide (ev.Code = K.PTP_EC_VITA_RequestCancelTask))).map
          (fun ev => (ev, ev.Param1)) ∧
    reads (readLoop K ({ stopDuring := true, result := ReadResult.event ev } :: post)
        s).2.trace = reads s.trace + 1 := by
  have hs : ∀ e, (((stop (s.emit Effect.readEvent)).2).emit e).is_active = false := by
    intro e
    simpa [CmaState.emit] using stop_clears_active (s.emit Effect.readEvent)
  obtain ⟨o1, o2, o3⟩ := stop_observed (s.emit Effect.readEvent)
  have e1 : submitted (s.emit Effect.readEvent).trace = submitted s.trace := by
    simp [CmaState.emit, submitted_append]; simp [submitted]
  have e2 : cancelled (s.emit Effect.readEvent).trace = cancelled s.trace := by
    simp [CmaState.emit, cancelled_append]; simp [cancelled]
  have e3 : reads (s.emit Effect.readEvent).trace = reads s.trace + 1 := by
    simp [CmaState.emit, reads_append]; simp [reads]
  rw [e1] at o1
  rw [e2] at o2
  rw [e3] at o3
  rw [readLoop]
  simp only [isActive, h, if_true, if_neg ht]
  by_cases hc : ev.Code = K.PTP_EC_VITA_RequestCancelTask
  · rw [if_pos hc, readLoop_inactive K post _ (hs _)]
    refine ⟨rfl, hs _, ?_, ?_, ?_⟩
    · show submitted ((stop (s.emit Effect.readEvent)).2.trace ++ _) = _
      rw [submitted_append, o1]; simp [submitted, hc]
    · show cancelled ((stop (s.emit Effect.readEvent)).2.trace ++ _) = _
      rw [cancelled_append, o2]; simp [cancelled, hc]
    · show reads ((stop (s.emit Effect.readEvent)).2.trace ++ _) = _
      rw [reads_append, o3]; simp [reads]
  · rw [if_neg hc, readLoop_inactive K post _ (hs _)]
    refine ⟨rfl, hs _, ?_, ?_, ?_⟩
    · show submitted ((stop (s.emit Effect.readEvent)).2.trace ++ _) = _
      rw [submitted_append, o1]; simp [submitted, hc]
    · show cancelled ((stop (s.emit Effect.readEvent)).2.trace ++ _) = _
      rw [cancelled_append, o2]; simp [cancelled, hc]
    · show reads ((stop (s.emit Effect.readEvent)).2.trace ++ _) = _
      rw [reads_append, o3]; simp [reads]

/-- The active flag after `enterEventLoop` is the one after its read loop. -/
theorem enterEventLoop_active (K : PtpCodes) (script : List ReadStep) (s : CmaState) :
    (enterEventLoop K script s).2.is_active =
      (readLoop K script (s.emit Effect.threadStart)).2.is_active := by
  unfold enterEventLoop
  generalize readLoop K script (s.emit Effect.threadStart) = r
  obtain ⟨ex, s1⟩ := r
  cases ex <;> rfl

/-- C8 (as stated, refuted): GenericA is being read when `stop()` arrives, the
device then sends GenericB and Terminate. The loop is left through its
`isActive()` test, not at a Terminate or a read error; one read is made, and
GenericB, sent after `stop()` and before Terminate, is neither read nor
dispatched. -/
theorem enterEventLoop_stop_cuts_session :
    activeState.is_active = true ∧
    (enterEventLoop sampleCodes stoppedReads activeState).1 = LoopExit.inactive ∧
    (enterEventLoop sampleCodes stoppedReads activeState).1 ≠ LoopExit.terminate ∧
    (enterEventLoop sampleCodes stoppedReads activeState).1 ≠ LoopExit.readError ∧
    reads (enterEventLoop sampleCodes stoppedReads activeState).2.trace = 1 ∧
    submitted (enterEventLoop sampleCodes stoppedReads activeState).2.trace = [genericA] ∧
    genericB ∉ submitted (enterEventLoop sampleCodes stoppedReads activeState).2.trace := by
  decide

/-- C8 (amended): `stop()` does not interrupt the read in progress, and the
event that read returns is still handled (submitted, or cancelled inline); but
then the loop is left at its `isActive()` test: with quiet reads `pre` that do
not end the loop, followed by a read during which `stop()` arrives and which
returns an event other than Terminate, the loop exits as inactive with the
active flag false, having served exactly `pre` and that one event with one
read each; and for every script, nothing after a read during which `stop()`
arrived has any influence. -/
theorem enterEventLoop_stop_ends_after_current_read (K : PtpCodes) (pre : List ReadResult)
    (ev : vita_event_t) (post : List ReadStep) (s : CmaState)
    (h : s.is_active = true) (hpre : ∀ r ∈ pre, endsLoop K r = false)
    (ht : ev.Code ≠ K.PTP_EC_VITA_RequestTerminate) :
    (enterEventLoop K (pre.map ReadStep.quiet ++
        { stopDuring := true, result := ReadResult.event ev } :: post) s).1 =
      LoopExit.inactive ∧
    (enterEventLoop K (pre.map ReadStep.quiet ++
        { stopDuring := true, result := ReadResult.event ev } :: post) s).2.is_active = false ∧
    submitted (enterEventLoop K (pre.map ReadStep.quiet ++
        { stopDuring := true, result := ReadResult.event ev } :: post) s).2.trace =
      submitted s.trace ++ (eventsOf (pre ++ [ReadResult.event ev])).filter
        (fun ev => decide (ev.Code ≠ K.PTP_EC_VITA_RequestCancelTask)) ∧
    cancelled (enterEventLoop K (pre.map ReadStep.quiet ++
        { stopDuring := true, result := ReadResult.event ev } :: post) s).2.trace =
      cancelled s.trace ++ ((eventsOf (pre ++ [ReadResult.event ev])).filter
        (fun ev => decide (ev.Code = K.PTP_EC_VITA_RequestCancelTask))).map
          (fun ev => (ev, ev.Param1)) ∧
    reads (enterEventLoop K (pre.map ReadStep.quiet ++
        { stopDuring := true, result := ReadResult.event ev } :: post) s).2.trace =
      reads s.trace + (pre.length + 1) ∧
    (∀ (before after : List ReadStep) (r : ReadStep), r.stopDuring = true →
      enterEventLoop K (before ++ r :: after) s = enterEventLoop K (before ++ [r]) s) := by
  obtain ⟨s1, g0, g1, g2, g3, g4⟩ :=
    readLoop_quiet_run K pre hpre (s.emit Effect.threadStart) h
  obtain ⟨q1, q2, q3, q4, q5⟩ := readLoop_stopped_read K post ev s1 g1 ht
  obtain ⟨o1, o2, o3⟩ := enterEventLoop_observed K (pre.map ReadStep.quiet ++
        { stopDuring := true, result := ReadResult.event ev } :: post) s
  have e1 : submitted (s.emit Effect.threadStart).trace = submitted s.trace := by
    simp [CmaState.emit, submitted_append]; simp [submitted]
  have e2 : cancelled (s.emit Effect.threadStart).trace = cancelled s.trace := by
    simp [CmaState.emit, cancelled_append]; simp [cancelled]
  have e3 : reads (s.emit Effect.threadStart).trace = reads s.trace := by
    simp [CmaState.emit, reads_append]; simp [reads]
  have ee : eventsOf (pre ++ [ReadResult.event ev]) = eventsOf pre ++ [ev] := by
    simp [eventsOf, List.filterMap_append]
  refine ⟨?_, ?_, ?_, ?_, ?_, ?_⟩
  · rw [enterEventLoop_exit, g0]; exact q1
  · rw [enterEventLoop_active, g0]; exact q2
  · rw [o1, g0, q3, g2, e1, ee, List.filter_append, List.append_assoc]
  · rw [o2, g0, q4, g3, e2, ee, List.filter_append, List.map_append, List.append_assoc]
  · rw [o3, g0, q5, g4, e3]; omega
  · intro before after r hr
    unfold enterEventLoop
    rw [readLoop_ignores_after_stop K before after r hr]

/-- C8 (amended) on the script where GenericA is read while `stop()` arrives
and GenericB, Terminate follow. -/
theorem enterEventLoop_stop_ends_after_current_read_witness :
    activeState.is_active = true ∧
    (∀ r ∈ ([] : List ReadResult), endsLoop sampleCodes r = false) ∧
    genericA.Code ≠ sampleCodes.PTP_EC_VITA_RequestTerminate ∧
    (enterEventLoop sampleCodes stoppedReads activeState).1 = LoopExit.inactive ∧
    submitted (enterEventLoop sampleCodes stoppedReads activeState).2.trace =
      submitted activeState.trace ++ (eventsOf ([] ++ [ReadResult.event genericA])).filter
        (fun ev => decide (ev.Code ≠ sampleCodes.PTP_EC_VITA_RequestCancelTask)) ∧
    enterEventLoop sampleCodes
        ([] ++ { stopDuring := true, result := ReadResult.event genericA } ::
          [ReadStep.quiet (ReadResult.event genericB)]) activeState =
      enterEventLoop sampleCodes
        ([] ++ [{ stopDuring := true, result := ReadResult.event genericA }]) activeState :=
  ⟨rfl, by simp, by decide,
    (enterEventLoop_stop_ends_after_current_read sampleCodes [] genericA
      [ReadStep.quiet (ReadResult.event genericB), ReadStep.quiet (ReadResult.event terminateEvent)]
      activeState rfl (by simp) (by decide)).1,
    (enterEventLoop_stop_ends_after_current_read sampleCodes [] genericA
      [ReadStep.quiet (ReadResult.event genericB), ReadStep.quiet (ReadResult.event terminateEvent)]
      activeState rfl (by simp) (by decide)).2.2.1,
    (enterEventLoop_stop_ends_after_current_read sampleCodes [] genericA
      [ReadStep.quiet (ReadResult.event genericB), ReadStep.quiet (ReadResult.event terminateEvent)]
      activeState rfl (by simp) (by decide)).2.2.2.2.2 []
      [ReadStep.quiet (ReadResult.event genericB)]
      { stopDuring := true, result := ReadResult.event genericA } rfl⟩

/-! ## Theorems: the discovery loops -/

/-- C9: after one USB session (failed exchange) one permit is available, and
after a second session two are: no discovery loop ever takes the permit a
session releases, so the permits do not return to zero. -/
theorem permits_accumulate :
    (processNewConnection sampleCodes { exchange := ExchangeResult.failed, events := [] }
      CmaState.initial).2.sema = 1 ∧
    (connectUsb sampleCodes twoSessions CmaState.initial).1 = Status.returned ∧
    (connectUsb sampleCodes twoSessions CmaState.initial).2.in_progress = false ∧
    (connectUsb sampleCodes twoSessions CmaState.initial).2.sema = 2 ∧
    (connectWireless sampleCodes twoSessions CmaState.initial).2.sema = 2 := by
  decide

/-! ## Theorems: the discovery threads side by side -/

/-- A thread that has set `in_progress` holds `mutex`. -/
theorem progressSet_holdsMutex (p : Pc) (h : p.progressSet = true) : p.holdsMutex = true := by
  cases p <;> simp_all [Pc.progressSet, Pc.holdsMutex]

/-- A thread inside a session holds `mutex`. -/
theorem inSession_holdsMutex (p : Pc) (h : p.inSession = true) : p.holdsMutex = true := by
  cases p <;> simp_all [Pc.inSession, Pc.holdsMutex]

/-- The invariant holds at program start. -/
theorem initial_inv : Sys.initial.Inv := by
  simp [Sys.Inv, Sys.initial, Pc.holdsMutex, Pc.progressSet]

/-- The program point of the thread that moved. -/
theorem goto_pc_self (s : Sys) (t : Tid) (p : Pc) : (s.goto t p).pc t = p := by
  simp [Sys.goto]

/-- The program point of a thread that did not move. -/
theorem goto_pc_other (s : Sys) (t t1 : Tid) (p : Pc) (h : t1 ≠ t) :
    (s.goto t p).pc t1 = s.pc t1 := by
  simp [Sys.goto, Function.update, h]

/-- A step that only moves thread `t` to a program point that needs no more of
`mutex` and `in_progress` than the one it leaves keeps the invariant. -/
theorem move_inv (s s1 : Sys) (t : Tid) (p : Pc) (hI : s.Inv)
    (hpc : s1.pc = (s.goto t p).pc) (hm : s1.mutex = s.mutex)
    (hp : s1.in_progress = s.in_progress) (ha : s1.acquired = s.acquired)
    (hsr : s.sema = s.released → s1.sema = s1.released)
    (h1 : p.holdsMutex = true → (s.pc t).holdsMutex = true)
    (h2 : p.progressSet = (s.pc t).progressSet) (h3 : p ≠ Pc.acquire) : s1.Inv := by
  obtain ⟨hM, hP1, hP2, hA, hC1, hC2⟩ := hI
  refine ⟨?_, ?_, ?_, ?_, ?_, ?_⟩
  · intro t1 ht1
    rw [hm]
    by_cases e : t1 = t
    · subst e
      rw [hpc, goto_pc_self] at ht1
      exact hM t1 (h1 ht1)
    · rw [hpc, goto_pc_other s t t1 p e] at ht1
      exact hM t1 ht1
  · intro hin
    rw [hp] at hin
    obtain ⟨t1, ht1⟩ := hP1 hin
    refine ⟨t1, ?_⟩
    by_cases e : t1 = t
    · subst e
      rw [hpc, goto_pc_self, h2]; exact ht1
    · rw [hpc, goto_pc_other s t t1 p e]; exact ht1
  · intro t1 ht1
    rw [hp]
    by_cases e : t1 = t
    · subst e
      rw [hpc, goto_pc_self, h2] at ht1
      exact hP2 t1 ht1
    · rw [hpc, goto_pc_other s t t1 p e] at ht1
      exact hP2 t1 ht1
  · intro t1
    by_cases e : t1 = t
    · subst e
      rw [hpc, goto_pc_self]; exact h3
    · rw [hpc, goto_pc_other s t t1 p e]; exact hA t1
  · rw [ha]; exact hC1
  · exact hsr hC2

/-- Taking the free `mutex` keeps the invariant. -/
theorem lock_inv (s : Sys) (t : Tid) (p : Pc) (hI : s.Inv) (hfree : s.mutex = none)
    (hp : p.progressSet = false) (h3 : p ≠ Pc.acquire) :
    ({ s.goto t p with mutex := some t } : Sys).Inv := by
  obtain ⟨hM, hP1, hP2, hA, hC1, hC2⟩ := hI
  have nobody : ∀ t1, (s.pc t1).holdsMutex = true → False := by
    intro t1 h
    have := hM t1 h
    rw [hfree] at this
    exact Option.noConfusion this
  refine ⟨?_, ?_, ?_, ?_, hC1, hC2⟩
  · intro t1 ht1
    by_cases e : t1 = t
    · subst e; rfl
    · rw [show ({ s.goto t p with mutex := some t } : Sys).pc t1 = s.pc t1 from
        goto_pc_other s t t1 p e] at ht1
      exact (nobody t1 ht1).elim
  · intro hin
    obtain ⟨t1, ht1⟩ := hP1 hin
    exact (nobody t1 (progressSet_holdsMutex _ ht1)).elim
  · intro t1 ht1
    by_cases e : t1 = t
    · subst e
      rw [show ({ s.goto t1 p with mutex := some t1 } : Sys).pc t1 = p from
        goto_pc_self s t1 p, hp] at ht1
      exact Bool.noConfusion ht1
    · rw [show ({ s.goto t p with mutex := some t } : Sys).pc t1 = s.pc t1 from
        goto_pc_other s t t1 p e] at ht1
      exact hP2 t1 ht1
  · intro t1
    by_cases e : t1 = t
    · subst e
      rw [show ({ s.goto t1 p with mutex := some t1 } : Sys).pc t1 = p from goto_pc_self s t1 p]
      exact h3
    · rw [show ({ s.goto t p with mutex := some t } : Sys).pc t1 = s.pc t1 from
        goto_pc_other s t t1 p e]
      exact hA t1

/-- Giving `mutex` back keeps the invariant. -/
theorem unlock_inv (s : Sys) (t : Tid) (p : Pc) (hI : s.Inv)
    (hheld : (s.pc t).holdsMutex = true) (hq : (s.pc t).progressSet = false)
    (hp : p.holdsMutex = false) :
    ({ s.goto t p with mutex := none } : Sys).Inv := by
  obtain ⟨hM, hP1, hP2, hA, hC1, hC2⟩ := hI
  have hmt : s.mutex = some t := hM t hheld
  have only : ∀ t1, (s.pc t1).holdsMutex = true → t1 = t := by
    intro t1 h
    have := hM t1 h
    rw [hmt] at this
    exact (Option.some.inj this).symm
  have hpp : p.progressSet = false := by
    cases hx : p.progressSet with
    | false => rfl
    | true => rw [progressSet_holdsMutex p hx] at hp; exact Bool.noConfusion hp
  refine ⟨?_, ?_, ?_, ?_, hC1, hC2⟩
  · intro t1 ht1
    by_cases e : t1 = t
    · subst e
      rw [show ({ s.goto t1 p with mutex := none } : Sys).pc t1 = p from
        goto_pc_self s t1 p, hp] at ht1
      exact Bool.noConfusion ht1
    · rw [show ({ s.goto t p with mutex := none } : Sys).pc t1 = s.pc t1 from
        goto_pc_other s t t1 p e] at ht1
      exact (e (only t1 ht1)).elim
  · intro hin
    obtain ⟨t1, ht1⟩ := hP1 hin
    have e : t1 ≠ t := by
      intro e; subst e; rw [hq] at ht1; exact Bool.noConfusion ht1
    exact ⟨t1, by
      rw [show ({ s.goto t p with mutex := none } : Sys).pc t1 = s.pc t1 from
        goto_pc_other s t t1 p e]
      exact ht1⟩
  · intro t1 ht1
    by_cases e : t1 = t
    · subst e
      rw [show ({ s.goto t1 p with mutex := none } : Sys).pc t1 = p from
        goto_pc_self s t1 p, hpp] at ht1
      exact Bool.noConfusion ht1
    · rw [show ({ s.goto t p with mutex := none } : Sys).pc t1 = s.pc t1 from
        goto_pc_other s t t1 p e] at ht1
      exact hP2 t1 ht1
  · intro t1
    by_cases e : t1 = t
    · subst e
      rw [show ({ s.goto t1 p with mutex := none } : Sys).pc t1 = p from goto_pc_self s t1 p]
      intro hx
      rw [hx] at hp
      simp [Pc.holdsMutex] at hp
    · rw [show ({ s.goto t p with mutex := none } : Sys).pc t1 = s.pc t1 from
        goto_pc_other s t t1 p e]
      exact hA t1

/-- Every step keeps the invariant. -/
theorem step_inv (a : Action) (s s1 : Sys) (hs : step a s = some s1) (hI : s.Inv) :
    s1.Inv := by
  have hI0 := hI
  obtain ⟨hM, hP1, hP2, hA, hC1, hC2⟩ := hI
  cases a with
  | stop =>
    simp only [step, Option.some.injEq] at hs
    subst hs
    split
    · exact ⟨hM, hP1, hP2, hA, hC1, hC2⟩
    · exact ⟨hM, hP1, hP2, hA, hC1, hC2⟩
  | run t answer =>
    cases hpc : s.pc t with
    | start =>
      simp only [step, hpc, Option.some.injEq] at hs
      subst hs
      exact move_inv s _ t Pc.discover hI0 rfl rfl rfl rfl id (by simp [Pc.holdsMutex])
        (by simp [hpc, Pc.progressSet]) (by simp)
    | discover =>
      simp only [step, hpc] at hs
      cases answer with
      | true =>
        simp only [if_true, Option.some.injEq] at hs
        subst hs
        exact move_inv s _ t Pc.lockSession hI0 rfl rfl rfl rfl id (by simp [Pc.holdsMutex])
          (by simp [hpc, Pc.progressSet]) (by simp)
      | false =>
        cases hk : t.kind with
        | usb =>
          simp [hk] at hs
          subst hs
          exact move_inv s _ t Pc.usbWait hI0 rfl rfl rfl rfl id (by simp [Pc.holdsMutex])
            (by simp [hpc, Pc.progressSet]) (by simp)
        | wireless =>
          simp [hk] at hs
          subst hs
          exact move_inv s _ t Pc.lockCheck hI0 rfl rfl rfl rfl id (by simp [Pc.holdsMutex])
            (by simp [hpc, Pc.progressSet]) (by simp)
    | usbWait =>
      simp only [step, hpc, Option.some.injEq] at hs
      subst hs
      exact move_inv s _ t Pc.lockCheck hI0 rfl rfl rfl rfl id (by simp [Pc.holdsMutex])
        (by simp [hpc, Pc.progressSet]) (by simp)
    | session =>
      simp only [step, hpc, Option.some.injEq] at hs
      subst hs
      cases answer with
      | true =>
        exact move_inv s _ t Pc.clearProgress hI0 rfl rfl rfl rfl id
          (by simp [hpc, Pc.holdsMutex]) (by simp [hpc, Pc.progressSet]) (by simp)
      | false =>
        exact move_inv s _ t Pc.session hI0 rfl rfl rfl rfl id
          (by simp [hpc, Pc.holdsMutex]) (by simp [hpc, Pc.progressSet]) (by simp)
    | sleepTest =>
      simp only [step, hpc, Option.some.injEq] at hs
      subst hs
      exact move_inv s _ t Pc.loopTest hI0 rfl rfl rfl rfl id (by simp [Pc.holdsMutex])
        (by simp [hpc, Pc.progressSet]) (by simp)
    | loopTest =>
      simp only [step, hpc, Option.some.injEq] at hs
      subst hs
      cases hact : s.is_active with
      | true =>
        exact move_inv s _ t Pc.discover hI0 (by simp) rfl rfl rfl id
          (by simp [Pc.holdsMutex]) (by simp [hpc, Pc.progressSet]) (by simp)
      | false =>
        exact move_inv s _ t Pc.done hI0 (by simp) rfl rfl rfl id
          (by simp [Pc.holdsMutex]) (by simp [hpc, Pc.progressSet]) (by simp)
    | check =>
      simp only [step, hpc, Option.some.injEq] at hs
      subst hs
      have hmt : s.mutex = some t := hM t (by simp [hpc, Pc.holdsMutex])
      have hin : s.in_progress = false := by
        cases hq : s.in_progress with
        | false => rfl
        | true =>
          obtain ⟨t1, ht1⟩ := hP1 hq
          have := hM t1 (progressSet_holdsMutex _ ht1)
          rw [hmt] at this
          have e : t1 = t := (Option.some.inj this).symm
          subst e
          simp [hpc, Pc.progressSet] at ht1
      exact move_inv s _ t Pc.unlockCheck hI0 (by simp [hin]) rfl rfl rfl id
        (by simp [hpc, Pc.holdsMutex]) (by simp [hpc, Pc.progressSet]) (by simp)
    | acquire => exact absurd hpc (hA t)
    | done => simp [step, hpc] at hs
    | lockSession =>
      simp only [step, hpc] at hs
      cases hfree : s.mutex with
      | some o => simp [hfree] at hs
      | none =>
        simp only [hfree, if_true, Option.some.injEq] at hs
        subst hs
        exact lock_inv s t Pc.setProgress hI0 hfree (by simp [Pc.progressSet]) (by simp)
    | lockCheck =>
      simp only [step, hpc] at hs
      cases hfree : s.mutex with
      | some o => simp [hfree] at hs
      | none =>
        simp only [hfree, if_true, Option.some.injEq] at hs
        subst hs
        exact lock_inv s t Pc.check hI0 hfree (by simp [Pc.progressSet]) (by simp)
    | unlockSession =>
      simp only [step, hpc, Option.some.injEq] at hs
      subst hs
      exact unlock_inv s t Pc.loopTest hI0 (by simp [hpc, Pc.holdsMutex])
        (by simp [hpc, Pc.progressSet]) (by simp [Pc.holdsMutex])
    | unlockCheck =>
      simp only [step, hpc] at hs
      cases hk : t.kind with
      | usb =>
        simp only [hk, Option.some.injEq] at hs
        subst hs
        exact unlock_inv s t Pc.loopTest hI0 (by simp [hpc, Pc.holdsMutex])
          (by simp [hpc, Pc.progressSet]) (by simp [Pc.holdsMutex])
      | wireless =>
        simp only [hk, Option.some.injEq] at hs
        subst hs
        exact unlock_inv s t Pc.sleepTest hI0 (by simp [hpc, Pc.holdsMutex])
          (by simp [hpc, Pc.progressSet]) (by simp [Pc.holdsMutex])
    | release =>
      simp only [step, hpc, Option.some.injEq] at hs
      subst hs
      exact move_inv s _ t Pc.unlockSession hI0 rfl rfl rfl rfl
        (fun h => by simp [Sys.goto, h])
        (by simp [hpc, Pc.holdsMutex]) (by simp [hpc, Pc.progressSet]) (by simp)
    | setProgress =>
      simp only [step, hpc, Option.some.injEq] at hs
      subst hs
      have hmt : s.mutex = some t := hM t (by simp [hpc, Pc.holdsMutex])
      refine ⟨?_, ?_, ?_, ?_, hC1, hC2⟩
      · intro t1 ht1
        by_cases e : t1 = t
        · subst e; exact hmt
        · rw [show ({ s.goto t Pc.session with in_progress := true } : Sys).pc t1 = s.pc t1 from
            goto_pc_other s t t1 _ e] at ht1
          exact hM t1 ht1
      · intro _
        exact ⟨t, by
          rw [show ({ s.goto t Pc.session with in_progress := true } : Sys).pc t = Pc.session from
            goto_pc_self s t _]
          rfl⟩
      · intro _ _; rfl
      · intro t1
        by_cases e : t1 = t
        · subst e
          rw [show ({ s.goto t1 Pc.session with in_progress := true } : Sys).pc t1 = Pc.session
            from goto_pc_self s t1 _]
          simp
        · rw [show ({ s.goto t Pc.session with in_progress := true } : Sys).pc t1 = s.pc t1 from
            goto_pc_other s t t1 _ e]
          exact hA t1
    | clearProgress =>
      simp only [step, hpc, Option.some.injEq] at hs
      subst hs
      have hmt : s.mutex = some t := hM t (by simp [hpc, Pc.holdsMutex])
      refine ⟨?_, ?_, ?_, ?_, hC1, hC2⟩
      · intro t1 ht1
        by_cases e : t1 = t
        · subst e; exact hmt
        · rw [show ({ s.goto t Pc.release with in_progress := false } : Sys).pc t1 = s.pc t1 from
            goto_pc_other s t t1 _ e] at ht1
          exact hM t1 ht1
      · intro h; exact Bool.noConfusion h
      · intro t1 ht1
        by_cases e : t1 = t
        · subst e
          rw [show ({ s.goto t1 Pc.release with in_progress := false } : Sys).pc t1 = Pc.release
            from goto_pc_self s t1 _] at ht1
          simp [Pc.progressSet] at ht1
        · rw [show ({ s.goto t Pc.release with in_progress := false } : Sys).pc t1 = s.pc t1 from
            goto_pc_other s t t1 _ e] at ht1
          have := hM t1 (progressSet_holdsMutex _ ht1)
          rw [hmt] at this
          exact (e (Option.some.inj this).symm).elim
      · intro t1
        by_cases e : t1 = t
        · subst e
          rw [show ({ s.goto t1 Pc.release with in_progress := false } : Sys).pc t1 = Pc.release
            from goto_pc_self s t1 _]
          simp
        · rw [show ({ s.goto t Pc.release with in_progress := false } : Sys).pc t1 = s.pc t1 from
            goto_pc_other s t t1 _ e]
          exact hA t1

/-- Every schedule keeps the invariant. -/
theorem exec_inv (acts : List Action) : ∀ s : Sys, s.Inv → (exec acts s).Inv := by
  induction acts with
  | nil => intro s h; exact h
  | cons a rest ih =>
    intro s h
    rw [exec]
    cases hs : step a s with
    | none => exact ih s h
    | some s1 => exact ih s1 (step_inv a s s1 hs h)

/-- In every reachable state of the discovery threads no thread is at
`sema.acquire()`, no permit was ever acquired, and the permits available are
all the permits released so far. -/
theorem permits_never_acquired (acts : List Action) :
    (∀ t, (exec acts Sys.initial).pc t ≠ Pc.acquire) ∧
    (exec acts Sys.initial).acquired = 0 ∧
    (exec acts Sys.initial).sema = (exec acts Sys.initial).released := by
  obtain ⟨_, _, _, hA, hC1, hC2⟩ := exec_inv acts Sys.initial initial_inv
  exact ⟨hA, hC1, hC2⟩

/-- C6: after every schedule of the discovery threads and of `stop()` calls, two
different threads are never both inside `processNewConnection` past its lock;
and `in_progress` is true exactly while some thread (hence exactly one) is
between setting and clearing it, and that thread owns `mutex`. -/
theorem sessions_never_overlap (acts : List Action) (t1 t2 : Tid) (h : t1 ≠ t2) :
    ¬ (((exec acts Sys.initial).pc t1).inSession = true ∧
       ((exec acts Sys.initial).pc t2).inSession = true) ∧
    ((exec acts Sys.initial).in_progress = true ↔
      ∃ t, ((exec acts Sys.initial).pc t).progressSet = true ∧
        (exec acts Sys.initial).mutex = some t) := by
  obtain ⟨hM, hP1, hP2, _, _, _⟩ := exec_inv acts Sys.initial initial_inv
  refine ⟨?_, ?_, ?_⟩
  · rintro ⟨a, b⟩
    have e1 := hM t1 (inSession_holdsMutex _ a)
    have e2 := hM t2 (inSession_holdsMutex _ b)
    rw [e1] at e2
    exact h (Option.some.inj e2)
  · intro hin
    obtain ⟨t, ht⟩ := hP1 hin
    exact ⟨t, ht, hM t (progressSet_holdsMutex _ ht)⟩
  · rintro ⟨t, ht, _⟩
    exact hP2 t ht

/-- C6 on a schedule where both threads find a device at the same time: the USB
thread is in its session, the wireless thread waits for `mutex`. -/
theorem sessions_never_overlap_witness :
    usbThread ≠ wirelessThread ∧
    ((exec contendedSchedule Sys.initial).pc usbThread = Pc.session ∧
     (exec contendedSchedule Sys.initial).pc wirelessThread = Pc.lockSession) ∧
    ¬ (((exec contendedSchedule Sys.initial).pc usbThread).inSession = true ∧
       ((exec contendedSchedule Sys.initial).pc wirelessThread).inSession = true) :=
  ⟨by decide, by decide,
    (sessions_never_overlap contendedSchedule usbThread wirelessThread (by decide)).1⟩

end Qcma
